import Mathlib

/-!
# Verification of the SNTP client time arithmetic and validation logic

A shallow embedding of the package's pure core (src/ntp.go): the Q32.32 /
Q16.16 fixed-point time codec, the four-timestamp arithmetic (rtt, offset,
minError, rootDistance), the packet-header bit accessors and decoder, the
response validator, and the post-receive portion of the query exchange.

Machine integers are modelled as Nat (unsigned) and Int (signed) with
explicit reduction modulo 2^64 (or 2^8) exactly where the Go code's fixed
width makes overflow observable.  Absolute times (Go time.Time) are modelled
as Int nanoseconds since the Unix epoch; durations (Go time.Duration, an
int64 nanosecond count) as Int.
-/

set_option maxRecDepth 100000

/-- Number of nanoseconds per second (Go constant nanoPerSec). -/
def nanoPerSec : Nat := 1000000000

/-- Largest value of a Go int64. -/
def maxInt64 : Int := 2 ^ 63 - 1

/-- Smallest value of a Go int64. -/
def minInt64 : Int := -(2 ^ 63)

/-- Reinterpretation of a uint64 bit pattern as a Go int64 (two's complement). -/
def toInt64 (n : Nat) : Int := if n < 2 ^ 63 then (n : Int) else (n : Int) - 2 ^ 64

/-- Result of a Go int64 operation whose mathematical value is x: the unique
representative of x modulo 2^64 lying in the signed 64-bit range. -/
def wrap64 (x : Int) : Int := (x + 2 ^ 63) % 2 ^ 64 - 2 ^ 63

/-- Go uint64 subtraction x - y, which wraps modulo 2^64. -/
def sub64 (x y : Nat) : Nat := (((x : Int) - (y : Int)) % 2 ^ 64).toNat

/-- Go time.Time.Sub: the difference of two instants as an int64 nanosecond
count, saturating at the int64 range limits as documented for time.Sub. -/
def timeSub (t u : Int) : Int :=
  if t - u > maxInt64 then maxInt64
  else if t - u < minInt64 then minInt64
  else t - u

/-- Days from the Unix epoch (1970-01-01) to the given proleptic Gregorian
calendar date; the civil-from-days algorithm used to model Go time.Date. -/
def daysFromCivil (y : Int) (m d : Nat) : Int :=
  let y2 := if m ≤ 2 then y - 1 else y
  let era := (if 0 ≤ y2 then y2 else y2 - 399) / 400
  let yoe := (y2 - era * 400).toNat
  let mp := (m + 9) % 12
  let doy := (153 * mp + 2) / 5 + d - 1
  let doe := yoe * 365 + yoe / 4 - yoe / 100 + doy
  era * 146097 + (doe : Int) - 719468

/-- Model of a Go time.Date(y, mo, d, hh, mi, s, 0, time.UTC) value as
nanoseconds since the Unix epoch. -/
def utcNanos (y : Int) (mo d hh mi s : Nat) : Int :=
  (daysFromCivil y mo d * 86400 + (hh : Int) * 3600 + (mi : Int) * 60 + (s : Int)) * 1000000000

/-- Go variable ntpEra0 = time.Date(1900, 1, 1, 0, 0, 0, 0, time.UTC). -/
def ntpEra0 : Int := utcNanos 1900 1 1 0 0 0

/-- Go variable ntpEra1 = time.Date(2036, 2, 7, 6, 28, 16, 0, time.UTC). -/
def ntpEra1 : Int := utcNanos 2036 2 7 6 28 16

/-- Method Duration of ntpTime: interprets a 64-bit Q32.32 fixed-point value
as an elapsed-seconds count and converts it to nanoseconds, rounding the
fractional part to nearest (the uint32(frac) >= 0x80000000 test) with ties
rounded up.  The result always fits in an int64 (see duration_lt_int64), so
the Go conversion to time.Duration is the identity and the model returns Nat. -/
def ntpTime.Duration (t : Nat) : Nat :=
  let sec := (t >>> 32) * nanoPerSec
  let frac := (t &&& 0xffffffff) * nanoPerSec
  let nsec := frac >>> 32
  let nsec := if frac % 2 ^ 32 ≥ 0x80000000 then nsec + 1 else nsec
  sec + nsec

/-- Method Time of ntpTime: interprets the fixed-point value as an absolute
time, assuming NTP era 1 when the raw value lies before the 1970 wire epoch
and era 0 otherwise. -/
def ntpTime.Time (t : Nat) : Int :=
  let t1970 : Nat := 0x83aa7e8000000000
  if t < t1970 then ntpEra1 + (ntpTime.Duration t : Int)
  else ntpEra0 + (ntpTime.Duration t : Int)

/-- Function toNtpTime: converts an absolute time (Int nanoseconds since the
Unix epoch) into its 64-bit Q32.32 fixed-point representation.  The first
step models uint64(t.Sub(ntpEra0)) : time.Sub saturates at the int64 limits
and the conversion to uint64 reduces modulo 2^64.  In the last step the Go
expression is sec<<32 | frac: the shift wraps modulo 2^64, and since
frac < 2^32 (toNtpTime frac is at most 4294967292, see the round-trip proof)
the bitwise or is the same as addition. -/
def toNtpTime (t : Int) : Nat :=
  let sub := t - ntpEra0
  let sub := if sub > maxInt64 then maxInt64 else if sub < minInt64 then minInt64 else sub
  let nsec := (sub % 2 ^ 64).toNat
  let sec := nsec / nanoPerSec
  let nsec := (nsec - sec * nanoPerSec) <<< 32
  let frac := nsec / nanoPerSec
  let frac := if nsec % nanoPerSec ≥ nanoPerSec / 2 then frac + 1 else frac
  (sec % 2 ^ 32) * 2 ^ 32 + frac

/-- Method Duration of ntpTimeShort: interprets a 32-bit Q16.16 fixed-point
value as an elapsed-seconds count in nanoseconds, rounding to nearest with
ties up (the uint16(frac) >= 0x8000 test). -/
def ntpTimeShort.Duration (t : Nat) : Nat :=
  let sec := (t >>> 16) * nanoPerSec
  let frac := (t &&& 0xffff) * nanoPerSec
  let nsec := frac >>> 16
  let nsec := if frac % 2 ^ 16 ≥ 0x8000 then nsec + 1 else nsec
  sec + nsec

-- Sanity checks connecting the constants to concrete values.
example : ntpEra0 = -2208988800000000000 := by decide
example : ntpEra1 = 2085978496000000000 := by decide
example : utcNanos 1970 1 1 0 0 0 = 0 := by decide

/-- NTP protocol mode constants (Go type mode); only client and server are
used by this package. -/
def client : Nat := 3

/-- Server mode constant. -/
def server : Nat := 4

/-- LeapIndicator constant LeapNoWarning. -/
def LeapNoWarning : Nat := 0

/-- LeapIndicator constant LeapNotInSync (unsynchronized server). -/
def LeapNotInSync : Nat := 3

/-- Go constant maxStratum. -/
def maxStratum : Nat := 16

/-- Go constant maxPollInterval = (1 << 17) * time.Second, in nanoseconds. -/
def maxPollInterval : Int := 131072 * 1000000000

/-- Go constant maxDispersion = 16 * time.Second, in nanoseconds. -/
def maxDispersion : Int := 16 * 1000000000

/-- The error values declared at the top of the package, plus MalformedHeader
for the header-decode failure (the spec's name for the error binary.Read
reports on a short buffer) and a constructor for opaque errors passed through
from the transport, the extensions or the dialer. -/
inductive Err where
  | AuthFailed
  | InvalidAuthKey
  | InvalidDispersion
  | InvalidLeapSecond
  | InvalidMode
  | InvalidProtocolVersion
  | InvalidStratum
  | InvalidTime
  | InvalidTransmitTime
  | KissOfDeath
  | ServerClockFreshness
  | ServerResponseMismatch
  | ServerTickedBackwards
  | MalformedHeader
  | external (code : Nat)
deriving DecidableEq

/-- The internal NTP packet header (Go struct header).  Unsigned fields are
Nat (uint8/uint32/uint64/ntpTime values); Poll and Precision are int8,
modelled as Int. -/
structure header where
  LiVnMode : Nat
  Stratum : Nat
  Poll : Int
  Precision : Int
  RootDelay : Nat
  RootDispersion : Nat
  ReferenceID : Nat
  ReferenceTime : Nat
  OriginTime : Nat
  ReceiveTime : Nat
  TransmitTime : Nat
deriving DecidableEq

/-- Method setVersion: h.LiVnMode = (h.LiVnMode & 0xc7) | uint8(v)<<3.  The
conversion uint8(v) is v modulo 2^8 and the uint8 shift wraps modulo 2^8. -/
def header.setVersion (h : header) (v : Int) : header :=
  { h with LiVnMode := (h.LiVnMode &&& 0xc7) ||| (((v % 256).toNat <<< 3) % 256) }

/-- Method setMode: h.LiVnMode = (h.LiVnMode & 0xf8) | uint8(md). -/
def header.setMode (h : header) (md : Nat) : header :=
  { h with LiVnMode := (h.LiVnMode &&& 0xf8) ||| (md % 256) }

/-- Method setLeap: h.LiVnMode = (h.LiVnMode & 0x3f) | uint8(li)<<6, the
uint8 shift wrapping modulo 2^8. -/
def header.setLeap (h : header) (li : Nat) : header :=
  { h with LiVnMode := (h.LiVnMode &&& 0x3f) ||| ((li <<< 6) % 256) }

/-- Method getVersion: int((h.LiVnMode >> 3) & 0x7). -/
def header.getVersion (h : header) : Int := ((h.LiVnMode >>> 3) &&& 0x7 : Nat)

/-- Method getMode: mode(h.LiVnMode & 0x07). -/
def header.getMode (h : header) : Nat := h.LiVnMode &&& 0x07

/-- Method getLeap: LeapIndicator((h.LiVnMode >> 6) & 0x03). -/
def header.getLeap (h : header) : Nat := (h.LiVnMode >>> 6) &&& 0x03

/-- The wire size of the header: 1+1+1+1+4+4+4+8+8+8+8 = 48 bytes, the number
of bytes binary.Read consumes for the header struct. -/
def headerSize : Nat := 48

/-- Big-endian value of the len bytes of buf starting at offset off. -/
def readBE (buf : List Nat) (off len : Nat) : Nat :=
  ((buf.drop off).take len).foldl (fun acc b => acc * 256 + b) 0

/-- Reinterpretation of a byte as a Go int8 (two's complement). -/
def toInt8 (b : Nat) : Int := if b < 128 then (b : Int) else (b : Int) - 256

/-- Model of binary.Read(recvReader, binary.BigEndian, recvHdr): fails when
fewer than the fixed 48 header bytes are available, otherwise decodes the
fields big-endian in declaration order. -/
def decodeHeader (buf : List Nat) : Except Err header :=
  if buf.length < headerSize then .error Err.MalformedHeader
  else .ok {
    LiVnMode := readBE buf 0 1
    Stratum := readBE buf 1 1
    Poll := toInt8 (readBE buf 2 1)
    Precision := toInt8 (readBE buf 3 1)
    RootDelay := readBE buf 4 4
    RootDispersion := readBE buf 8 4
    ReferenceID := readBE buf 12 4
    ReferenceTime := readBE buf 16 8
    OriginTime := readBE buf 24 8
    ReceiveTime := readBE buf 32 8
    TransmitTime := readBE buf 40 8 }

/-- Function rtt(org, rec, xmt, dst): a := int64(dst - org) and
b := int64(xmt - rec) are era-safe wrapped differences; their int64
difference is clamped at zero and converted to a duration.  ntpTime(rtt) is
the uint64 reinterpretation of the clamped int64 value. -/
def rtt (org rec xmt dst : Nat) : Int :=
  let a := toInt64 (sub64 dst org)
  let b := toInt64 (sub64 xmt rec)
  let rtt := wrap64 (a - b)
  let rtt := if rtt < 0 then 0 else rtt
  (ntpTime.Duration (rtt % 2 ^ 64).toNat : Int)

/-- Function offset(org, rec, xmt, dst): a := int64(rec - org),
b := int64(xmt - dst), offset := a + (b-a)/2 in wrapping int64 arithmetic
with Go's truncating division, then converted to a signed duration:
-ntpTime(-offset).Duration() when negative, ntpTime(offset).Duration()
otherwise (ntpTime(x) being the uint64 reinterpretation). -/
def offset (org rec xmt dst : Nat) : Int :=
  let a := toInt64 (sub64 rec org)
  let b := toInt64 (sub64 xmt dst)
  let offset := wrap64 (a + Int.tdiv (wrap64 (b - a)) 2)
  if offset < 0 then -(ntpTime.Duration ((-offset) % 2 ^ 64).toNat : Int)
  else (ntpTime.Duration (offset % 2 ^ 64).toNat : Int)

/-- Function minError(org, rec, xmt, dst): the larger of the two causality
violations org-rec and xmt-dst (each taken only when nonnegative). -/
def minError (org rec xmt dst : Nat) : Int :=
  let error0 := if org ≥ rec then org - rec else 0
  let error1 := if xmt ≥ dst then xmt - dst else 0
  if error0 > error1 then (ntpTime.Duration error0 : Int) else (ntpTime.Duration error1 : Int)

/-- Function rootDistance(rtt, rootDelay, rootDisp) = (rtt + rootDelay)/2 +
rootDisp in int64 duration arithmetic. -/
def rootDistance (rtt rootDelay rootDisp : Int) : Int :=
  let totalDelay := wrap64 (rtt + rootDelay)
  wrap64 (Int.tdiv totalDelay 2 + rootDisp)

/-- Function toInterval(t int8): decodes a signed power-of-two exponent into
a duration: 2^t seconds via uint64 shifts (a Go shift by 64 or more bits
yields 0, which reducing the shifted value modulo 2^64 reproduces), exactly
one second when t = 0. -/
def toInterval (t : Int) : Int :=
  if t > 0 then toInt64 (((1000000000 : Nat) <<< t.toNat) % 2 ^ 64)
  else if t < 0 then toInt64 ((1000000000 : Nat) >>> (-t).toNat)
  else (1000000000 : Int)

/-- Function kissCode(id): the four big-endian bytes of id as a string when
all are printable ASCII, the empty string otherwise. -/
def kissCode (id : Nat) : String :=
  let b := [(id >>> 24) % 256, (id >>> 16) % 256, (id >>> 8) % 256, id % 256]
  if b.all fun ch => decide (32 ≤ ch ∧ ch ≤ 126) then
    String.mk (b.map fun ch => Char.ofNat ch)
  else ""

/-- The Response record (Go struct Response): server-reported fields and
client-computed fields, plus the unexported deferred authentication error. -/
structure Response where
  ClockOffset : Int
  Time : Int
  RTT : Int
  Precision : Int
  Version : Int
  Stratum : Nat
  ReferenceID : Nat
  ReferenceTime : Int
  RootDelay : Int
  RootDispersion : Int
  RootDistance : Int
  Leap : Nat
  MinError : Int
  KissCode : String
  Poll : Int
  authErr : Option Err
deriving DecidableEq

/-- Method Validate of Response: forwards a stored authentication error,
then checks stratum, freshness, dispersion, time ordering and the leap
indicator in the order of the source, returning the first failure. -/
def Response.Validate (r : Response) : Option Err :=
  match r.authErr with
  | some e => some e
  | none =>
    if r.Stratum = 0 then some Err.KissOfDeath
    else if maxStratum ≤ r.Stratum then some Err.InvalidStratum
    else
      let freshness := timeSub r.Time r.ReferenceTime
      if maxPollInterval < freshness then some Err.ServerClockFreshness
      else
        let lambda := wrap64 (Int.tdiv r.RootDelay 2 + r.RootDispersion)
        if maxDispersion < lambda then some Err.InvalidDispersion
        else if r.Time < r.ReferenceTime then some Err.InvalidTime
        else if r.Leap = LeapNotInSync then some Err.InvalidLeapSecond
        else none

/-- Function generateResponse(h, recvTime, authErr): builds the Response
from the header fields, then fills in RootDistance from the already
computed fields and, for stratum 0, the kiss code. -/
def generateResponse (h : header) (recvTime : Nat) (authErr : Option Err) : Response :=
  let r : Response := {
    Time := ntpTime.Time h.TransmitTime
    ClockOffset := offset h.OriginTime h.ReceiveTime h.TransmitTime recvTime
    RTT := rtt h.OriginTime h.ReceiveTime h.TransmitTime recvTime
    Precision := toInterval h.Precision
    Version := h.getVersion
    Stratum := h.Stratum
    ReferenceID := h.ReferenceID
    ReferenceTime := ntpTime.Time h.ReferenceTime
    RootDelay := ntpTimeShort.Duration h.RootDelay
    RootDispersion := ntpTimeShort.Duration h.RootDispersion
    Leap := h.getLeap
    MinError := minError h.OriginTime h.ReceiveTime h.TransmitTime recvTime
    Poll := toInterval h.Poll
    authErr := authErr
    RootDistance := 0
    KissCode := "" }
  let r := { r with RootDistance := rootDistance r.RTT r.RootDelay r.RootDispersion }
  if r.Stratum = 0 then { r with KissCode := kissCode r.ReferenceID } else r

/-- The tail of getTime after the reply header has been decoded and the
extensions have run: the structural checks of the reply (mode, nonzero
transmit time, origin/decoy match, receive not after transmit), each failing
with (nil, 0, err); on success the origin time is overwritten with the true
transmit instant and (recvHdr, toNtpTime(recvTime), authErr) is returned,
authErr being the result of verifyMAC. -/
def getTimeTail (recvHdr : header) (xmitTransmitTime : Nat) (xmitTime recvTime : Int)
    (authErr : Option Err) : Option header × Nat × Option Err :=
  if recvHdr.getMode ≠ server then (none, 0, some Err.InvalidMode)
  else if recvHdr.TransmitTime = 0 then (none, 0, some Err.InvalidTransmitTime)
  else if recvHdr.OriginTime ≠ xmitTransmitTime then (none, 0, some Err.ServerResponseMismatch)
  else if recvHdr.ReceiveTime > recvHdr.TransmitTime then (none, 0, some Err.ServerTickedBackwards)
  else (some { recvHdr with OriginTime := toNtpTime xmitTime }, toNtpTime recvTime, authErr)

/-- Function QueryWithOptions as a function of the outcome of getTime (its
header, receive-time and error results): a non-authentication error is
returned with a nil response; otherwise the response is generated and the
error result (nil or the deferred ErrAuthFailed) is stored inside it. -/
def QueryWithOptions (g : Option header × Nat × Option Err) : Option Response × Option Err :=
  let (h, now, err) := g
  if err ≠ none ∧ err ≠ some Err.AuthFailed then (none, err)
  else (h.map fun hd => generateResponse hd now err, none)

/-- Difference of two 64-bit timestamps taken modulo 2^64 and reinterpreted
as a signed 64-bit value: the claims' wording for the era-rollover-safe
subtraction of two uint64 timestamps. -/
def signedDiff64 (x y : Nat) : Int := wrap64 ((x : Int) - (y : Int))

/-- The amended claim C1 formula, written from the claim's words: offset =
a + (b - a)/2 with a = rec - org and b = xmt - dst taken modulo 2^64 as
signed 64-bit values, the difference b - a and the final addition likewise
reduced to signed 64-bit values, the division truncating toward zero, and
the sign of the signed result preserved by the duration conversion. -/
def offsetAmendedSpec (org rec xmt dst : Nat) : Int :=
  let a := signedDiff64 rec org
  let b := signedDiff64 xmt dst
  let o := wrap64 (a + Int.tdiv (wrap64 (b - a)) 2)
  if o < 0 then -(ntpTime.Duration (-o).toNat : Int) else (ntpTime.Duration o.toNat : Int)

/-- The amended claim C4 formula, written from the claim's words: rtt =
max(0, s) where s is the difference (dst - org) - (xmt - rec) of the two
signed-64-bit pairwise differences, itself reduced to a signed 64-bit
value, converted to a duration. -/
def rttAmendedSpec (org rec xmt dst : Nat) : Int :=
  let a := signedDiff64 dst org
  let b := signedDiff64 xmt rec
  (ntpTime.Duration (max 0 (wrap64 (a - b))).toNat : Int)

/-- wrap64 always lands in the signed 64-bit range. -/
theorem wrap64_range (x : Int) : -(2 ^ 63) ≤ wrap64 x ∧ wrap64 x < 2 ^ 63 := by
  unfold wrap64
  omega

/-- wrap64 is the identity on the signed 64-bit range. -/
theorem wrap64_eq_self (x : Int) (h1 : -(2 ^ 63) ≤ x) (h2 : x < 2 ^ 63) : wrap64 x = x := by
  unfold wrap64
  omega

/-- The Go idiom int64(x - y) on uint64 values is the signed-64-bit wrap of
the mathematical difference. -/
theorem toInt64_sub64 (x y : Nat) : toInt64 (sub64 x y) = signedDiff64 x y := by
  unfold toInt64 sub64 signedDiff64 wrap64
  split_ifs <;> omega

/-- Arithmetic form of ntpTime.Duration (shifts and mask written as division
and remainder). -/
theorem duration_eq_divmod (t : Nat) :
    ntpTime.Duration t = (t / 2 ^ 32) * nanoPerSec +
      (if (t % 2 ^ 32) * nanoPerSec % 2 ^ 32 ≥ 2 ^ 31
       then (t % 2 ^ 32) * nanoPerSec / 2 ^ 32 + 1
       else (t % 2 ^ 32) * nanoPerSec / 2 ^ 32) := by
  have h32 : (0xffffffff : Nat) = 2 ^ 32 - 1 := by decide
  have h80 : (0x80000000 : Nat) = 2 ^ 31 := by decide
  simp only [ntpTime.Duration, h32, h80, Nat.and_pow_two_sub_one_eq_mod,
    Nat.shiftRight_eq_div_pow]

/-- The Duration of any 64-bit fixed-point value fits in an int64, so the
Go conversion of sec + nsec to time.Duration is the identity. -/
theorem duration_lt_int64 (t : Nat) (h : t < 2 ^ 64) : ntpTime.Duration t < 2 ^ 63 := by
  rw [duration_eq_divmod]
  have h1 : t / 2 ^ 32 < 2 ^ 32 := by omega
  have h2 : (t % 2 ^ 32) * nanoPerSec / 2 ^ 32 ≤ nanoPerSec := by
    have : (t % 2 ^ 32) * nanoPerSec ≤ 2 ^ 32 * nanoPerSec := by
      have := Nat.mod_lt t (y := 2 ^ 32) (by decide)
      exact Nat.mul_le_mul_right _ (by omega)
    unfold nanoPerSec at *
    omega
  unfold nanoPerSec at *
  split_ifs <;> omega

/-- Rounded scaling of a nanosecond remainder into a 32-bit fraction, the
arithmetic core of toNtpTime. -/
def encodeFrac (r : Nat) : Nat :=
  r * 4294967296 / 1000000000 + if 500000000 ≤ r * 4294967296 % 1000000000 then 1 else 0

/-- Rounded scaling of a 32-bit fraction back into nanoseconds, the
arithmetic core of ntpTime.Duration. -/
def decodeFrac (f : Nat) : Nat :=
  f * 1000000000 / 4294967296 + if 2147483648 ≤ f * 1000000000 % 4294967296 then 1 else 0

/-- ntpTime.Duration split into whole seconds and decoded fraction. -/
theorem duration_eq_frac (x : Nat) :
    ntpTime.Duration x = x / 4294967296 * 1000000000 + decodeFrac (x % 4294967296) := by
  have p32 : (2 : Nat) ^ 32 = 4294967296 := by decide
  have p31 : (2 : Nat) ^ 31 = 2147483648 := by decide
  rw [duration_eq_divmod, p32, p31]
  unfold decodeFrac nanoPerSec
  split_ifs <;> omega

/-- The encoded fraction of a sub-second remainder occupies 32 bits. -/
theorem encodeFrac_lt (r : Nat) (h : r < 1000000000) : encodeFrac r < 4294967296 := by
  unfold encodeFrac
  split_ifs <;> omega

/-- Round trip of the fractional part: rounding to a 32-bit fraction and
back to nanoseconds (both to nearest, ties up) recovers the remainder
exactly, because 2^32 exceeds 10^9 and the two rounding errors cannot sum
to a full nanosecond. -/
theorem decodeFrac_encodeFrac (r : Nat) (_h : r < 1000000000) : decodeFrac (encodeFrac r) = r := by
  unfold decodeFrac encodeFrac
  split_ifs <;> omega

/-- Arithmetic normal form of toNtpTime on the int64-representable range. -/
theorem toNtpTime_of_toNat (t : Int) (h0 : 0 ≤ t - ntpEra0) (h1 : t - ntpEra0 < 2 ^ 63) :
    toNtpTime t = (t - ntpEra0).toNat / 1000000000 % 4294967296 * 4294967296 +
      encodeFrac ((t - ntpEra0).toNat % 1000000000) := by
  have p32 : (2 : Nat) ^ 32 = 4294967296 := by decide
  simp only [toNtpTime, maxInt64, minInt64, Nat.shiftLeft_eq, nanoPerSec, p32]
  rw [if_neg (by omega), if_neg (by omega)]
  have hmod : (t - ntpEra0) % 2 ^ 64 = t - ntpEra0 := by omega
  rw [hmod]
  unfold encodeFrac
  split_ifs <;> omega

/-- Within the supported range (from the 1970 wire epoch to 2^31 seconds
past the era-1 transition) the encode-decode round trip is exact. -/
theorem toNtpTime_time_exact (t : Int) (h0 : utcNanos 1970 1 1 0 0 0 ≤ t)
    (h1 : t < ntpEra1 + 2 ^ 31 * (nanoPerSec : Int)) :
    ntpTime.Time (toNtpTime t) = t := by
  have e0 : ntpEra0 = -2208988800000000000 := by decide
  have e1 : ntpEra1 = 2085978496000000000 := by decide
  have h70 : utcNanos 1970 1 1 0 0 0 = 0 := by decide
  have hn : ((nanoPerSec : Nat) : Int) = 1000000000 := by decide
  rw [h70] at h0
  rw [e1, hn] at h1
  have hs0 : 0 ≤ t - ntpEra0 := by omega
  have hs1 : t - ntpEra0 < 2 ^ 63 := by omega
  rw [toNtpTime_of_toNat t hs0 hs1]
  have hNt : ((t - ntpEra0).toNat : Int) = t - ntpEra0 := Int.toNat_of_nonneg hs0
  set N := (t - ntpEra0).toNat with hNdef
  have hNlow : 2208988800000000000 ≤ N := by omega
  have hNhigh : N < 6442450944000000000 := by omega
  have hqr : N = 1000000000 * (N / 1000000000) + N % 1000000000 ∧ N % 1000000000 < 1000000000 := by
    omega
  set q := N / 1000000000 with hq
  set r := N % 1000000000 with hr
  have hql : 2208988800 ≤ q := by omega
  have hqh : q < 6442450944 := by omega
  have hfl : encodeFrac r < 4294967296 := encodeFrac_lt r hqr.2
  rcases Nat.lt_or_ge q 4294967296 with hcase | hcase
  · have hqmod : q % 4294967296 = q := Nat.mod_eq_of_lt hcase
    rw [hqmod]
    simp only [ntpTime.Time]
    rw [if_neg (by omega), duration_eq_frac]
    have hdiv : (q * 4294967296 + encodeFrac r) / 4294967296 = q := by omega
    have hmod2 : (q * 4294967296 + encodeFrac r) % 4294967296 = encodeFrac r := by omega
    rw [hdiv, hmod2, decodeFrac_encodeFrac r hqr.2, e0]
    omega
  · have hqmod : q % 4294967296 = q - 4294967296 := by omega
    rw [hqmod]
    simp only [ntpTime.Time]
    rw [if_pos (by omega), duration_eq_frac]
    have hdiv : ((q - 4294967296) * 4294967296 + encodeFrac r) / 4294967296 = q - 4294967296 := by
      omega
    have hmod2 : ((q - 4294967296) * 4294967296 + encodeFrac r) % 4294967296 = encodeFrac r := by
      omega
    rw [hdiv, hmod2, decodeFrac_encodeFrac r hqr.2, e1]
    omega

/-- C2: decoding a 64-bit fixed-point timestamp uses the era heuristic:
every raw value strictly below the wire-epoch constant 0x83aa7e8000000000
is interpreted relative to the second era beginning 2036-02-07 06:28:16 UTC
(ntpEra1), every value at or above it relative to the first era beginning
1900-01-01 UTC (ntpEra0); 0x83aa7e7fffffffff decodes into 2036 or later and
0x83aa7e8000000000 decodes to exactly 1970-01-01 00:00:00 UTC. -/
theorem era_heuristic_decode (t : Nat) (ht : t < 2 ^ 64) :
    (t < 0x83aa7e8000000000 → ntpTime.Time t = ntpEra1 + (ntpTime.Duration t : Int)) ∧
    (0x83aa7e8000000000 ≤ t → ntpTime.Time t = ntpEra0 + (ntpTime.Duration t : Int)) ∧
    utcNanos 2036 1 1 0 0 0 ≤ ntpTime.Time 0x83aa7e7fffffffff ∧
    ntpTime.Time 0x83aa7e8000000000 = utcNanos 1970 1 1 0 0 0 := by
  refine ⟨fun h => ?_, fun h => ?_, by decide, by decide⟩
  · simp only [ntpTime.Time]
    rw [if_pos h]
  · simp only [ntpTime.Time]
    rw [if_neg (by omega)]

/-- Witness for C2 at concrete raw values on both sides of the boundary. -/
theorem era_heuristic_decode_witness :
    ((100 : Nat) < 2 ^ 64 ∧ (100 : Nat) < 0x83aa7e8000000000 ∧
      ntpTime.Time 100 = ntpEra1 + (ntpTime.Duration 100 : Int)) ∧
    ((0x83aa7e8000000000 : Nat) < 2 ^ 64 ∧
      (0x83aa7e8000000000 : Nat) ≤ 0x83aa7e8000000000 ∧
      ntpTime.Time 0x83aa7e8000000000 = ntpEra0 + (ntpTime.Duration 0x83aa7e8000000000 : Int)) :=
  ⟨⟨by decide, by decide, (era_heuristic_decode 100 (by decide)).1 (by decide)⟩,
   ⟨by decide, by decide,
    (era_heuristic_decode 0x83aa7e8000000000 (by decide)).2.1 (by decide)⟩⟩

/-- C3: for every representable instant between the 1970 wire epoch and
2^31 seconds (about 68 years) past the 2036 era transition, encoding with
toNtpTime (fractional nanoseconds rounded to nearest, ties up) and decoding
with ntpTime.Time yields an instant within one nanosecond of the input (in
fact the round trip is exact, see toNtpTime_time_exact). -/
theorem toNtpTime_roundtrip_within_one_ns (t : Int) (h0 : utcNanos 1970 1 1 0 0 0 ≤ t)
    (h1 : t < ntpEra1 + 2 ^ 31 * (nanoPerSec : Int)) :
    (ntpTime.Time (toNtpTime t) - t).natAbs ≤ 1 := by
  rw [toNtpTime_time_exact t h0 h1]
  simp

/-- Witness for C3 at a concrete instant (2023-11-14 22:13:20 UTC). -/
theorem toNtpTime_roundtrip_within_one_ns_witness :
    utcNanos 1970 1 1 0 0 0 ≤ (1700000000000000000 : Int) ∧
    (1700000000000000000 : Int) < ntpEra1 + 2 ^ 31 * (nanoPerSec : Int) ∧
    (ntpTime.Time (toNtpTime 1700000000000000000) - 1700000000000000000).natAbs ≤ 1 :=
  ⟨by decide, by decide,
   toNtpTime_roundtrip_within_one_ns 1700000000000000000 (by decide) (by decide)⟩

/-- The duration conversion of a signed offset in the int64 range: the
uint64 reinterpretations are plain absolute values. -/
theorem duration_signed_emod (o : Int) (h1 : -(2 ^ 63) ≤ o) (h2 : o < 2 ^ 63) :
    (if o < 0 then -(ntpTime.Duration ((-o) % 2 ^ 64).toNat : Int)
     else (ntpTime.Duration (o % 2 ^ 64).toNat : Int)) =
    (if o < 0 then -(ntpTime.Duration (-o).toNat : Int)
     else (ntpTime.Duration o.toNat : Int)) := by
  split_ifs with h
  · have e : (-o) % 2 ^ 64 = -o := by omega
    rw [e]
  · have e : o % 2 ^ 64 = o := by omega
    rw [e]

/-- C1 (counterexample): at org = 2^63, rec = 0, xmt = 2^63 - 2^33, dst = 0,
the claimed formula (rec-org) + (((xmt-dst) - (rec-org)) / 2), with the two
pairwise differences taken modulo 2^64 as signed 64-bit values, yields a
negative signed result under either reading of the remaining operations
(outer difference and addition mathematical, or outer difference also
wrapped), namely -2^32 or -(2^63 + 2^32), i.e. the durations -1 s or about
-2147483649 s; the code's offset, whose final addition wraps in int64
arithmetic, instead returns the positive duration 2147483647 s, so the
claimed equality and sign preservation fail. -/
theorem offset_claim_counterexample :
    offset (2 ^ 63) 0 (2 ^ 63 - 2 ^ 33) 0 = 2147483647000000000 ∧
    signedDiff64 0 (2 ^ 63) +
      Int.tdiv (signedDiff64 (2 ^ 63 - 2 ^ 33) 0 - signedDiff64 0 (2 ^ 63)) 2 =
      -(2 ^ 32) ∧
    signedDiff64 0 (2 ^ 63) +
      Int.tdiv (wrap64 (signedDiff64 (2 ^ 63 - 2 ^ 33) 0 - signedDiff64 0 (2 ^ 63))) 2 =
      -(2 ^ 63) - 2 ^ 32 ∧
    -(ntpTime.Duration (2 ^ 32 : Nat) : Int) = -1000000000 := by
  refine ⟨by decide, by decide, by decide, by decide⟩

/-- C1 (amended): the computed clock offset equals a + (b - a)/2 where
a = rec - org and b = xmt - dst are taken modulo 2^64 and reinterpreted as
signed 64-bit values (era-rollover-safe subtraction), and where the
difference b - a and the final addition are likewise reduced to signed
64-bit values, the division truncating toward zero; the sign of the signed
result is preserved when the offset is converted to a duration (negative
signed results yield nonpositive durations, nonnegative ones nonnegative
durations). -/
theorem offset_amended_formula (org rec xmt dst : Nat) :
    offset org rec xmt dst = offsetAmendedSpec org rec xmt dst ∧
    (wrap64 (signedDiff64 rec org +
        Int.tdiv (wrap64 (signedDiff64 xmt dst - signedDiff64 rec org)) 2) < 0 →
      offset org rec xmt dst ≤ 0) ∧
    (0 ≤ wrap64 (signedDiff64 rec org +
        Int.tdiv (wrap64 (signedDiff64 xmt dst - signedDiff64 rec org)) 2) →
      0 ≤ offset org rec xmt dst) := by
  have key : offset org rec xmt dst = offsetAmendedSpec org rec xmt dst := by
    simp only [offset, offsetAmendedSpec, toInt64_sub64]
    exact duration_signed_emod _ (wrap64_range _).1 (wrap64_range _).2
  refine ⟨key, fun h => ?_, fun h => ?_⟩
  · rw [key]
    simp only [offsetAmendedSpec]
    rw [if_pos h]
    omega
  · rw [key]
    simp only [offsetAmendedSpec]
    rw [if_neg (by omega)]
    omega

/-- Witness for C1 (amended) at the C5 timestamps; the signed result there
is nonnegative and the computed offset is the nonnegative duration 0.05 s. -/
theorem offset_amended_formula_witness :
    offset 429496729600 431644213248 432073709978 433791696896 =
      offsetAmendedSpec 429496729600 431644213248 432073709978 433791696896 ∧
    (0 ≤ wrap64 (signedDiff64 431644213248 429496729600 +
        Int.tdiv (wrap64 (signedDiff64 432073709978 433791696896 -
          signedDiff64 431644213248 429496729600)) 2) ∧
      0 ≤ offset 429496729600 431644213248 432073709978 433791696896) :=
  ⟨(offset_amended_formula 429496729600 431644213248 432073709978 433791696896).1,
   by decide,
   (offset_amended_formula 429496729600 431644213248 432073709978 433791696896).2.2
     (by decide)⟩

/-- C4 (counterexample): at org = 0, rec = 0, xmt = 2^63 - 2^32,
dst = 2^63, the signed 64-bit difference dst - org is smaller than the
signed 64-bit difference xmt - rec, so the claim requires an rtt of exactly
zero (and max(0, (dst-org) - (xmt-rec)) is indeed zero); but the code's
int64 subtraction of the two differences wraps to +2^32 and the computed
rtt is the duration 1 s, not zero. -/
theorem rtt_claim_counterexample :
    rtt 0 0 (2 ^ 63 - 2 ^ 32) (2 ^ 63) = 1000000000 ∧
    signedDiff64 (2 ^ 63) 0 < signedDiff64 (2 ^ 63 - 2 ^ 32) 0 ∧
    max 0 (signedDiff64 (2 ^ 63) 0 - signedDiff64 (2 ^ 63 - 2 ^ 32) 0) = 0 := by
  refine ⟨by decide, by decide, by decide⟩

/-- C4 (amended): the computed round-trip time equals max(0, s) where
s = (dst - org) - (xmt - rec), the two pairwise differences being taken
modulo 2^64 as signed 64-bit values and their difference likewise reduced
to a signed 64-bit value; whenever s < 0 (in particular whenever
(dst - org) < (xmt - rec) and the mathematical difference does not
underflow the signed 64-bit range) the result is exactly zero, and the
returned RTT duration is never negative. -/
theorem rtt_amended_formula (org rec xmt dst : Nat) :
    rtt org rec xmt dst = rttAmendedSpec org rec xmt dst ∧
    (wrap64 (signedDiff64 dst org - signedDiff64 xmt rec) < 0 →
      rtt org rec xmt dst = 0) ∧
    (signedDiff64 dst org < signedDiff64 xmt rec →
      -(2 ^ 63) ≤ signedDiff64 dst org - signedDiff64 xmt rec →
      rtt org rec xmt dst = 0) ∧
    0 ≤ rtt org rec xmt dst := by
  have hr := wrap64_range (signedDiff64 dst org - signedDiff64 xmt rec)
  have key : rtt org rec xmt dst = rttAmendedSpec org rec xmt dst := by
    simp only [rtt, rttAmendedSpec, toInt64_sub64]
    have e : (if wrap64 (signedDiff64 dst org - signedDiff64 xmt rec) < 0 then 0
        else wrap64 (signedDiff64 dst org - signedDiff64 xmt rec)) % 2 ^ 64 =
        max 0 (wrap64 (signedDiff64 dst org - signedDiff64 xmt rec)) := by
      split_ifs with h <;> omega
    rw [e]
  have zkey : wrap64 (signedDiff64 dst org - signedDiff64 xmt rec) < 0 →
      rtt org rec xmt dst = 0 := by
    intro h
    rw [key]
    simp only [rttAmendedSpec, toInt64_sub64]
    have e : max 0 (wrap64 (signedDiff64 dst org - signedDiff64 xmt rec)) = 0 := by omega
    rw [e]
    decide
  refine ⟨key, zkey, fun h1 h2 => ?_, ?_⟩
  · refine zkey ?_
    rw [wrap64_eq_self _ h2 (by omega)]
    omega
  · rw [key]
    simp only [rttAmendedSpec, toInt64_sub64]
    omega

/-- Witness for C4 (amended): a skewed exchange (server timestamps ahead of
the client's) whose wrapped signed difference is negative, so the rtt clamps
to zero. -/
theorem rtt_amended_formula_witness :
    rtt 0 0 4294967296 1 = rttAmendedSpec 0 0 4294967296 1 ∧
    wrap64 (signedDiff64 1 0 - signedDiff64 4294967296 0) < 0 ∧
    rtt 0 0 4294967296 1 = 0 ∧
    signedDiff64 1 0 < signedDiff64 4294967296 0 ∧
    -(2 ^ 63) ≤ signedDiff64 1 0 - signedDiff64 4294967296 0 ∧
    0 ≤ rtt 0 0 4294967296 1 :=
  ⟨(rtt_amended_formula 0 0 4294967296 1).1,
   by decide,
   (rtt_amended_formula 0 0 4294967296 1).2.1 (by decide),
   by decide, by decide,
   (rtt_amended_formula 0 0 4294967296 1).2.2.2⟩

/-- C5 (counterexample): with org = 100.0 s, rec = 100.5 s, xmt = 100.6 s
(rounded to the nearest Q32.32 value, 432073709978) and dst = 101.0 s, the
offset is indeed about 0.05 s (exactly 50000000 ns), but the round-trip
time is (dst-org) - (xmt-rec) = 1.0 s - 0.1 s = 0.9 s (exactly 900000000
ns), which is not approximately 0.4 s: it differs from 400000000 ns by
500000000 ns, more than any tolerance under half a second. -/
theorem concrete_offset_rtt_counterexample :
    rtt 429496729600 431644213248 432073709978 433791696896 = 900000000 ∧
    ¬ (rtt 429496729600 431644213248 432073709978 433791696896 - 400000000).natAbs ≤
      100000000 := by
  refine ⟨by decide, by decide⟩

/-- C5 (amended): for org = 100.0 s, rec = 100.5 s, xmt = 100.6 s, dst =
101.0 s in the Q32.32 fixed-point scale, the computed offset is
approximately 0.05 s (exactly 0.05 s after duration rounding) and the
computed round-trip time is approximately 0.9 s (exactly 0.9 s after
duration rounding). -/
theorem concrete_offset_rtt_amended :
    offset 429496729600 431644213248 432073709978 433791696896 = 50000000 ∧
    rtt 429496729600 431644213248 432073709978 433791696896 = 900000000 := by
  refine ⟨by decide, by decide⟩

/-- C6: Validate is a pure function of the Response applying its checks in
exactly this order and returning the first matching error: a stored
deferred authentication failure first and unconditionally; stratum 0 kiss
of death; stratum at least 16 invalid; reported time minus reference time
(a saturating int64 difference) exceeding the maximum poll interval of 2^17
seconds; root delay / 2 plus root dispersion strictly exceeding 16 seconds
(a value of exactly 16 s passes this check); reported time before reference
time; leap indicator equal to not-synchronized; otherwise no error. -/
theorem validate_check_order (r : Response) :
    (∀ e, r.authErr = some e → r.Validate = some e) ∧
    (r.authErr = none → r.Stratum = 0 → r.Validate = some Err.KissOfDeath) ∧
    (r.authErr = none → r.Stratum ≠ 0 → maxStratum ≤ r.Stratum →
      r.Validate = some Err.InvalidStratum) ∧
    (r.authErr = none → r.Stratum ≠ 0 → r.Stratum < maxStratum →
      maxPollInterval < timeSub r.Time r.ReferenceTime →
      r.Validate = some Err.ServerClockFreshness) ∧
    (r.authErr = none → r.Stratum ≠ 0 → r.Stratum < maxStratum →
      timeSub r.Time r.ReferenceTime ≤ maxPollInterval →
      maxDispersion < wrap64 (Int.tdiv r.RootDelay 2 + r.RootDispersion) →
      r.Validate = some Err.InvalidDispersion) ∧
    (r.authErr = none → r.Stratum ≠ 0 → r.Stratum < maxStratum →
      timeSub r.Time r.ReferenceTime ≤ maxPollInterval →
      wrap64 (Int.tdiv r.RootDelay 2 + r.RootDispersion) ≤ maxDispersion →
      r.Time < r.ReferenceTime → r.Validate = some Err.InvalidTime) ∧
    (r.authErr = none → r.Stratum ≠ 0 → r.Stratum < maxStratum →
      timeSub r.Time r.ReferenceTime ≤ maxPollInterval →
      wrap64 (Int.tdiv r.RootDelay 2 + r.RootDispersion) ≤ maxDispersion →
      ¬ r.Time < r.ReferenceTime → r.Leap = LeapNotInSync →
      r.Validate = some Err.InvalidLeapSecond) ∧
    (r.authErr = none → r.Stratum ≠ 0 → r.Stratum < maxStratum →
      timeSub r.Time r.ReferenceTime ≤ maxPollInterval →
      wrap64 (Int.tdiv r.RootDelay 2 + r.RootDispersion) ≤ maxDispersion →
      ¬ r.Time < r.ReferenceTime → r.Leap ≠ LeapNotInSync →
      r.Validate = none) := by
  refine ⟨fun e he => ?_, fun hA h1 => ?_, fun hA h1 h2 => ?_, fun hA h1 h2 h3 => ?_,
    fun hA h1 h2 h3 h4 => ?_, fun hA h1 h2 h3 h4 h5 => ?_,
    fun hA h1 h2 h3 h4 h5 h6 => ?_, fun hA h1 h2 h3 h4 h5 h6 => ?_⟩
  · simp only [Response.Validate, he]
  · simp only [Response.Validate, hA, if_pos h1]
  · simp only [Response.Validate, hA]
    rw [if_neg h1, if_pos h2]
  · simp only [Response.Validate, hA]
    rw [if_neg h1, if_neg (by omega), if_pos h3]
  · simp only [Response.Validate, hA]
    rw [if_neg h1, if_neg (by omega), if_neg (by omega), if_pos h4]
  · simp only [Response.Validate, hA]
    rw [if_neg h1, if_neg (by omega), if_neg (by omega), if_neg (by omega), if_pos h5]
  · simp only [Response.Validate, hA]
    rw [if_neg h1, if_neg (by omega), if_neg (by omega), if_neg (by omega), if_neg h5,
      if_pos h6]
  · simp only [Response.Validate, hA]
    rw [if_neg h1, if_neg (by omega), if_neg (by omega), if_neg (by omega), if_neg h5,
      if_neg h6]

/-- A concrete response sitting exactly at the 16-second dispersion
boundary (root delay 32 s, dispersion 0, so lambda = 16 s), otherwise
valid. -/
def boundaryResponse : Response :=
  { ClockOffset := 0, Time := 0, RTT := 0, Precision := 0, Version := 4, Stratum := 2,
    ReferenceID := 0, ReferenceTime := 0, RootDelay := 32000000000, RootDispersion := 0,
    RootDistance := 0, Leap := 0, MinError := 0, KissCode := "", Poll := 0, authErr := none }

/-- Witness for C6: the boundary response with lambda exactly 16 s passes
every check and validates with no error. -/
theorem validate_check_order_witness : boundaryResponse.Validate = none :=
  (validate_check_order boundaryResponse).2.2.2.2.2.2.2 rfl (by decide) (by decide)
    (by decide) (by decide) (by decide) (by decide)

/-- C7: after decoding a reply header the exchange applies the structural
checks in order and aborts with no result (nil header, zero receive time,
the error) on the first failure: reply mode must equal server, the reply's
transmit timestamp must be nonzero, the reply's origin timestamp must equal
exactly the random decoy transmit timestamp that was sent (regardless of
every other field), and the reply's receive timestamp must not exceed its
transmit timestamp; otherwise the origin time is replaced by the true
transmit instant and the exchange continues. -/
theorem structural_checks_order (recvHdr : header) (decoy : Nat) (xt rt : Int)
    (ae : Option Err) :
    (recvHdr.getMode ≠ server →
      getTimeTail recvHdr decoy xt rt ae = (none, 0, some Err.InvalidMode)) ∧
    (recvHdr.getMode = server → recvHdr.TransmitTime = 0 →
      getTimeTail recvHdr decoy xt rt ae = (none, 0, some Err.InvalidTransmitTime)) ∧
    (recvHdr.getMode = server → recvHdr.TransmitTime ≠ 0 → recvHdr.OriginTime ≠ decoy →
      getTimeTail recvHdr decoy xt rt ae = (none, 0, some Err.ServerResponseMismatch)) ∧
    (recvHdr.getMode = server → recvHdr.TransmitTime ≠ 0 → recvHdr.OriginTime = decoy →
      recvHdr.ReceiveTime > recvHdr.TransmitTime →
      getTimeTail recvHdr decoy xt rt ae = (none, 0, some Err.ServerTickedBackwards)) ∧
    (recvHdr.getMode = server → recvHdr.TransmitTime ≠ 0 → recvHdr.OriginTime = decoy →
      ¬ recvHdr.ReceiveTime > recvHdr.TransmitTime →
      getTimeTail recvHdr decoy xt rt ae =
        (some { recvHdr with OriginTime := toNtpTime xt }, toNtpTime rt, ae)) := by
  refine ⟨fun h1 => ?_, fun h1 h2 => ?_, fun h1 h2 h3 => ?_, fun h1 h2 h3 h4 => ?_,
    fun h1 h2 h3 h4 => ?_⟩
  · simp only [getTimeTail]
    rw [if_pos h1]
  · simp only [getTimeTail]
    rw [if_neg (by simp [h1]), if_pos h2]
  · simp only [getTimeTail]
    rw [if_neg (by simp [h1]), if_neg h2, if_pos h3]
  · simp only [getTimeTail]
    rw [if_neg (by simp [h1]), if_neg h2, if_neg (by simp [h3]), if_pos h4]
  · simp only [getTimeTail]
    rw [if_neg (by simp [h1]), if_neg h2, if_neg (by simp [h3]), if_neg h4]

/-- Witness for C7: a reply in client mode (LiVnMode 0x23) is rejected with
InvalidMode; a well-formed server reply (mode 4, matching origin) passes
the checks and its origin time is overwritten. -/
theorem structural_checks_order_witness :
    getTimeTail ⟨0x23, 2, 0, 0, 0, 0, 0, 0, 7, 5, 6⟩ 7 0 0 none =
      (none, 0, some Err.InvalidMode) ∧
    getTimeTail ⟨0x24, 2, 0, 0, 0, 0, 0, 0, 7, 5, 6⟩ 7 0 0 none =
      (some ⟨0x24, 2, 0, 0, 0, 0, 0, 0, toNtpTime 0, 5, 6⟩, toNtpTime 0, none) :=
  ⟨(structural_checks_order _ 7 0 0 none).1 (by decide),
   (structural_checks_order _ 7 0 0 none).2.2.2.2 (by decide) (by decide) (by decide)
     (by decide)⟩

/-- C8: when MAC verification fails the exchange still completes:
QueryWithOptions on a getTime outcome carrying a populated header and the
deferred ErrAuthFailed returns the fully generated Response with a nil
error, the failure is stored in the response's authErr field, and Validate
surfaces exactly that stored failure before any other check (whatever the
remaining fields are); every other (non-authentication) error outcome of
getTime yields a nil Response and that error. -/
theorem query_deferred_auth (hd : header) (now : Nat) :
    QueryWithOptions (some hd, now, some Err.AuthFailed) =
      (some (generateResponse hd now (some Err.AuthFailed)), none) ∧
    (generateResponse hd now (some Err.AuthFailed)).authErr = some Err.AuthFailed ∧
    (generateResponse hd now (some Err.AuthFailed)).Validate = some Err.AuthFailed ∧
    (generateResponse hd now (some Err.AuthFailed)).Time = ntpTime.Time hd.TransmitTime ∧
    (generateResponse hd now (some Err.AuthFailed)).ClockOffset =
      offset hd.OriginTime hd.ReceiveTime hd.TransmitTime now ∧
    (generateResponse hd now (some Err.AuthFailed)).Stratum = hd.Stratum ∧
    (∀ e : Err, e ≠ Err.AuthFailed → QueryWithOptions (none, 0, some e) = (none, some e)) := by
  have hauth : (generateResponse hd now (some Err.AuthFailed)).authErr = some Err.AuthFailed := by
    simp only [generateResponse]
    split_ifs <;> rfl
  refine ⟨?_, hauth, ?_, ?_, ?_, ?_, fun e he => ?_⟩
  · simp only [QueryWithOptions]
    rw [if_neg (by simp)]
    rfl
  · simp only [Response.Validate, hauth]
  · simp only [generateResponse]
    split_ifs <;> rfl
  · simp only [generateResponse]
    split_ifs <;> rfl
  · simp only [generateResponse]
    split_ifs <;> rfl
  · simp only [QueryWithOptions]
    rw [if_pos (by simp [he])]

/-- Witness for C8 at a concrete header and a concrete transport error. -/
theorem query_deferred_auth_witness :
    (generateResponse ⟨0x24, 2, 6, -20, 1000, 1000, 0, 0, 0, 5, 6⟩ 7
      (some Err.AuthFailed)).Validate = some Err.AuthFailed ∧
    Err.InvalidMode ≠ Err.AuthFailed ∧
    QueryWithOptions (none, 0, some Err.InvalidMode) = (none, some Err.InvalidMode) :=
  ⟨(query_deferred_auth ⟨0x24, 2, 6, -20, 1000, 1000, 0, 0, 0, 5, 6⟩ 7).2.2.1, by decide,
   (query_deferred_auth ⟨0x24, 2, 6, -20, 1000, 1000, 0, 0, 0, 5, 6⟩ 7).2.2.2.2.2.2
     Err.InvalidMode (by decide)⟩

/-- C9: decoding a header from a reply fails with the MalformedHeader error
kind whenever fewer than the fixed 48 header bytes are available, and
succeeds (producing the big-endian decoded header) on any buffer of at
least the fixed header length. -/
theorem decode_header_length (buf : List Nat) :
    (buf.length < headerSize → decodeHeader buf = .error Err.MalformedHeader) ∧
    (headerSize ≤ buf.length → decodeHeader buf =
      .ok ⟨readBE buf 0 1, readBE buf 1 1, toInt8 (readBE buf 2 1), toInt8 (readBE buf 3 1),
        readBE buf 4 4, readBE buf 8 4, readBE buf 12 4, readBE buf 16 8, readBE buf 24 8,
        readBE buf 32 8, readBE buf 40 8⟩) := by
  refine ⟨fun h => ?_, fun h => ?_⟩
  · simp only [decodeHeader]
    rw [if_pos h]
  · simp only [decodeHeader]
    rw [if_neg (by omega)]

/-- Witness for C9 on the empty buffer and on a 48-byte zero buffer. -/
theorem decode_header_length_witness :
    decodeHeader [] = .error Err.MalformedHeader ∧
    decodeHeader (List.replicate 48 0) =
      .ok ⟨readBE (List.replicate 48 0) 0 1, readBE (List.replicate 48 0) 1 1,
        toInt8 (readBE (List.replicate 48 0) 2 1), toInt8 (readBE (List.replicate 48 0) 3 1),
        readBE (List.replicate 48 0) 4 4, readBE (List.replicate 48 0) 8 4,
        readBE (List.replicate 48 0) 12 4, readBE (List.replicate 48 0) 16 8,
        readBE (List.replicate 48 0) 24 8, readBE (List.replicate 48 0) 32 8,
        readBE (List.replicate 48 0) 40 8⟩ :=
  ⟨(decode_header_length []).1 (by decide),
   (decode_header_length (List.replicate 48 0)).2 (by decide)⟩

/-- Setting the version field preserves the mode and leap bits and is read
back exactly, for every byte and every three-bit version value. -/
theorem version_bits : ∀ b < 256, ∀ v < 8,
    ((((b &&& 0xc7) ||| ((v <<< 3) % 256)) >>> 3) &&& 0x7) = v ∧
    (((b &&& 0xc7) ||| ((v <<< 3) % 256)) &&& 0x07) = (b &&& 0x07) ∧
    ((((b &&& 0xc7) ||| ((v <<< 3) % 256)) >>> 6) &&& 0x03) = ((b >>> 6) &&& 0x03) := by
  decide

/-- Setting the mode field preserves the version and leap bits and is read
back exactly, for every byte and every three-bit mode value. -/
theorem mode_bits : ∀ b < 256, ∀ md < 8,
    (((b &&& 0xf8) ||| (md % 256)) &&& 0x07) = md ∧
    ((((b &&& 0xf8) ||| (md % 256)) >>> 3) &&& 0x7) = ((b >>> 3) &&& 0x7) ∧
    ((((b &&& 0xf8) ||| (md % 256)) >>> 6) &&& 0x03) = ((b >>> 6) &&& 0x03) := by
  decide

/-- Setting the leap field preserves the version and mode bits and is read
back exactly, for every byte and every two-bit leap value. -/
theorem leap_bits : ∀ b < 256, ∀ li < 4,
    ((((b &&& 0x3f) ||| ((li <<< 6) % 256)) >>> 6) &&& 0x03) = li ∧
    ((((b &&& 0x3f) ||| ((li <<< 6) % 256)) >>> 3) &&& 0x7) = ((b >>> 3) &&& 0x7) ∧
    (((b &&& 0x3f) ||| ((li <<< 6) % 256)) &&& 0x07) = (b &&& 0x07) := by
  decide

/-- C10: the leap/version/mode byte accessors use the fixed layout (leap in
the two most-significant bits, version in the next three, mode in the low
three): for every header with a byte-sized LiVnMode and every in-range
value, after calling a setter the corresponding getter returns exactly the
value set, and each setter leaves the other two bit fields unchanged. -/
theorem header_bit_accessors (h : header) (hb : h.LiVnMode < 256) :
    (∀ v : Int, 0 ≤ v → v < 8 →
      (h.setVersion v).getVersion = v ∧
      (h.setVersion v).getMode = h.getMode ∧
      (h.setVersion v).getLeap = h.getLeap) ∧
    (∀ md : Nat, md < 8 →
      (h.setMode md).getMode = md ∧
      (h.setMode md).getVersion = h.getVersion ∧
      (h.setMode md).getLeap = h.getLeap) ∧
    (∀ li : Nat, li < 4 →
      (h.setLeap li).getLeap = li ∧
      (h.setLeap li).getVersion = h.getVersion ∧
      (h.setLeap li).getMode = h.getMode) := by
  refine ⟨fun v h0 h8 => ?_, fun md hmd => ?_, fun li hli => ?_⟩
  · obtain ⟨n, rfl⟩ : ∃ n : Nat, v = (n : Int) := ⟨v.toNat, (Int.toNat_of_nonneg h0).symm⟩
    have hn : n < 8 := by exact_mod_cast h8
    have hcast : (((n : Int) % 256).toNat) = n := by omega
    have hv := version_bits h.LiVnMode hb n hn
    unfold header.setVersion header.getVersion header.getMode header.getLeap
    simp only [hcast]
    exact ⟨by exact_mod_cast hv.1, hv.2.1, hv.2.2⟩
  · have hv := mode_bits h.LiVnMode hb md hmd
    unfold header.setMode header.getVersion header.getMode header.getLeap
    exact ⟨hv.1, by exact_mod_cast hv.2.1, hv.2.2⟩
  · have hv := leap_bits h.LiVnMode hb li hli
    unfold header.setLeap header.getVersion header.getMode header.getLeap
    exact ⟨hv.1, by exact_mod_cast hv.2.1, hv.2.2⟩

/-- Witness for C10 at the byte 0xb5 with version 5, mode 4 and leap 2. -/
theorem header_bit_accessors_witness :
    ((⟨0xb5, 0, 0, 0, 0, 0, 0, 0, 0, 0, 0⟩ : header).LiVnMode < 256 ∧
      (0 : Int) ≤ 5 ∧ (5 : Int) < 8) ∧
    ((header.setVersion ⟨0xb5, 0, 0, 0, 0, 0, 0, 0, 0, 0, 0⟩ 5).getVersion = 5 ∧
      (header.setVersion ⟨0xb5, 0, 0, 0, 0, 0, 0, 0, 0, 0, 0⟩ 5).getMode =
        (⟨0xb5, 0, 0, 0, 0, 0, 0, 0, 0, 0, 0⟩ : header).getMode ∧
      (header.setVersion ⟨0xb5, 0, 0, 0, 0, 0, 0, 0, 0, 0, 0⟩ 5).getLeap =
        (⟨0xb5, 0, 0, 0, 0, 0, 0, 0, 0, 0, 0⟩ : header).getLeap) ∧
    ((header.setMode ⟨0xb5, 0, 0, 0, 0, 0, 0, 0, 0, 0, 0⟩ 4).getMode = 4 ∧
      (header.setMode ⟨0xb5, 0, 0, 0, 0, 0, 0, 0, 0, 0, 0⟩ 4).getVersion =
        (⟨0xb5, 0, 0, 0, 0, 0, 0, 0, 0, 0, 0⟩ : header).getVersion ∧
      (header.setMode ⟨0xb5, 0, 0, 0, 0, 0, 0, 0, 0, 0, 0⟩ 4).getLeap =
        (⟨0xb5, 0, 0, 0, 0, 0, 0, 0, 0, 0, 0⟩ : header).getLeap) ∧
    ((header.setLeap ⟨0xb5, 0, 0, 0, 0, 0, 0, 0, 0, 0, 0⟩ 2).getLeap = 2 ∧
      (header.setLeap ⟨0xb5, 0, 0, 0, 0, 0, 0, 0, 0, 0, 0⟩ 2).getVersion =
        (⟨0xb5, 0, 0, 0, 0, 0, 0, 0, 0, 0, 0⟩ : header).getVersion ∧
      (header.setLeap ⟨0xb5, 0, 0, 0, 0, 0, 0, 0, 0, 0, 0⟩ 2).getMode =
        (⟨0xb5, 0, 0, 0, 0, 0, 0, 0, 0, 0, 0⟩ : header).getMode) :=
  ⟨⟨by decide, by decide, by decide⟩,
   (header_bit_accessors ⟨0xb5, 0, 0, 0, 0, 0, 0, 0, 0, 0, 0⟩ (by decide)).1 5
     (by decide) (by decide),
   (header_bit_accessors ⟨0xb5, 0, 0, 0, 0, 0, 0, 0, 0, 0, 0⟩ (by decide)).2.1 4
     (by decide),
   (header_bit_accessors ⟨0xb5, 0, 0, 0, 0, 0, 0, 0, 0, 0, 0⟩ (by decide)).2.2 2
     (by decide)⟩
